import Mathlib

/-!
Shallow embedding of the DOM helper library in src/lib/utils/DOM/index.js:
class-list utilities, the removal watcher, scrollable-ancestor resolution
and the scroll-to operation, together with theorems settling the frozen
claims about them.
-/

set_option linter.unusedVariables false

namespace Widgetly

/-- A value reachable on the `parentNode` chain: either an ordinary element
(identified by a numeric id; `document.body` and `document.documentElement`
are the elements the `Dom` structure designates) or the `Document` node
itself, which is the `parentNode` of the root element and is a distinct
object from `document.documentElement`.  JS `null` is `Option.none` at the
use sites. -/
inductive DomNode where
  | doc : DomNode
  | elem (id : Nat) : DomNode
  deriving DecidableEq, Repr

/-- The `document` global, as a `DomNode`.  It is the `Document` node, never
equal to the root *element* `document.documentElement`. -/
def documentNode : DomNode := DomNode.doc

/-- The read-only tree state the helpers consult: `parentNode` links,
layout heights, computed vertical-overflow style, and the identities of
`document.body` and `document.documentElement`. -/
structure Dom where
  parentNode : Nat → Option DomNode
  scrollHeight : Nat → Int
  clientHeight : Nat → Int
  overflowY : Nat → String
  body : Nat
  documentElement : Nat

/-- Embeds `findScrollableParent(element)` (src/lib/utils/DOM/index.js:165-176),
with explicit recursion fuel: `none` is the walk running out of fuel
(non-termination / stack overflow in JS), `some v` is the JS return value,
itself an `Option DomNode` because JS nodes are nullable (every actual
return site yields a node).

Source structure mirrored:
* `if (!element || document === document.documentElement) return document.documentElement`
  — the first disjunct is the `none` arm; the second compares the `Document`
  node against the root element, two distinct objects, embedded as
  `documentNode = DomNode.elem d.documentElement`;
* for the `Document` node itself, `document.scrollHeight > document.clientHeight`
  is `undefined > undefined` (false), and `document` is neither `document.body`
  nor `document.documentElement`, so control always falls through to the
  recursive call on `document.parentNode`, which is `null`; the
  `getComputedStyle` read is never reached for it;
* for an element, the outer guard is
  `scrollHeight > clientHeight || element === document.body || element === document.documentElement`,
  and inside it `overflowY === 'auto' || overflowY === 'scroll'` decides the
  return; both failing guards continue with `element.parentNode`. -/
def findScrollableParent (d : Dom) : Nat → Option DomNode → Option (Option DomNode)
  | 0, _ => none
  | _ + 1, none => some (some (DomNode.elem d.documentElement))
  | fuel + 1, some n =>
    if documentNode = DomNode.elem d.documentElement then
      some (some (DomNode.elem d.documentElement))
    else
      match n with
      | DomNode.doc => findScrollableParent d fuel none
      | DomNode.elem e =>
        if d.scrollHeight e > d.clientHeight e ∨ e = d.body ∨ e = d.documentElement then
          if d.overflowY e = "auto" ∨ d.overflowY e = "scroll" then
            some (some (DomNode.elem e))
          else
            findScrollableParent d fuel (d.parentNode e)
        else
          findScrollableParent d fuel (d.parentNode e)

/-- The scrollability predicate exactly as the spec sentence states it:
content height exceeds visible height AND (body OR root OR vertical
overflow exactly auto or scroll). -/
def specQualifies (d : Dom) (e : Nat) : Prop :=
  d.scrollHeight e > d.clientHeight e ∧
    (e = d.body ∨ e = d.documentElement ∨ d.overflowY e = "auto" ∨ d.overflowY e = "scroll")

instance (d : Dom) (e : Nat) : Decidable (specQualifies d e) := by
  unfold specQualifies; exact instDecidableAnd

/-- The scrollability predicate the code actually applies at each visited
element: (content height exceeds visible height OR body OR root) AND
vertical overflow exactly auto or scroll. -/
def qualifiesStep (d : Dom) (e : Nat) : Prop :=
  (d.scrollHeight e > d.clientHeight e ∨ e = d.body ∨ e = d.documentElement) ∧
    (d.overflowY e = "auto" ∨ d.overflowY e = "scroll")

instance (d : Dom) (e : Nat) : Decidable (qualifiesStep d e) := by
  unfold qualifiesStep; exact instDecidableAnd

/-- A concrete document: body (id 0) overflows its client box but has
`overflow-y: visible`; the root element (id 1) also has `overflow-y:
visible`; the chain is body → root → document → null. -/
def exDom : Dom where
  parentNode := fun e =>
    match e with
    | 0 => some (DomNode.elem 1)
    | 1 => some DomNode.doc
    | _ + 2 => none
  scrollHeight := fun e =>
    match e with
    | 0 => 10
    | _ + 1 => 5
  clientHeight := fun _ => 5
  overflowY := fun _ => "visible"
  body := 0
  documentElement := 1

theorem documentNode_ne (x : Nat) : documentNode ≠ DomNode.elem x := by
  simp [documentNode]

/-- One step of the upward walk, at an element, reduced to the single
predicate `qualifiesStep`. -/
theorem findScrollableParent_elem_step (d : Dom) (fuel : Nat) (e : Nat) :
    findScrollableParent d (fuel + 1) (some (DomNode.elem e)) =
      if qualifiesStep d e then some (some (DomNode.elem e))
      else findScrollableParent d fuel (d.parentNode e) := by
  rw [findScrollableParent]
  rw [if_neg (by simp [documentNode])]
  by_cases hA : d.scrollHeight e > d.clientHeight e ∨ e = d.body ∨ e = d.documentElement
  · by_cases hB : d.overflowY e = "auto" ∨ d.overflowY e = "scroll"
    · rw [if_pos hA, if_pos hB, if_pos ⟨hA, hB⟩]
    · rw [if_pos hA, if_neg hB, if_neg (fun hq => hB hq.2)]
  · rw [if_neg hA, if_neg (fun hq => hA hq.1)]

/-- The walk from `x` reaches `null` in `k` parent steps, and no element
visited on the way satisfies the code's step predicate (so none is
returned early). -/
inductive ReachesNull (d : Dom) : Option DomNode → Nat → Prop where
  | nil : ReachesNull d none 0
  | docStep {k : Nat} : ReachesNull d none k → ReachesNull d (some DomNode.doc) (k + 1)
  | elemStep {e k : Nat} : ¬ qualifiesStep d e → ReachesNull d (d.parentNode e) k →
      ReachesNull d (some (DomNode.elem e)) (k + 1)

theorem findScrollableParent_of_reachesNull (d : Dom) :
    ∀ {x : Option DomNode} {k : Nat}, ReachesNull d x k → ∀ {fuel : Nat}, k < fuel →
      findScrollableParent d fuel x = some (some (DomNode.elem d.documentElement)) := by
  intro x k h
  induction h with
  | nil =>
    intro fuel hf
    obtain ⟨f, rfl⟩ := Nat.exists_eq_succ_of_ne_zero (Nat.pos_iff_ne_zero.mp hf)
    rfl
  | docStep hr ih =>
    intro fuel hf
    obtain ⟨f, rfl⟩ := Nat.exists_eq_succ_of_ne_zero (Nat.pos_iff_ne_zero.mp (Nat.lt_of_le_of_lt (Nat.zero_le _) hf))
    rw [findScrollableParent, if_neg (by simp [documentNode])]
    exact ih (Nat.lt_of_succ_lt_succ hf)
  | elemStep hq hr ih =>
    intro fuel hf
    obtain ⟨f, rfl⟩ := Nat.exists_eq_succ_of_ne_zero (Nat.pos_iff_ne_zero.mp (Nat.lt_of_le_of_lt (Nat.zero_le _) hf))
    rw [findScrollableParent_elem_step, if_neg hq]
    exact ih (Nat.lt_of_succ_lt_succ hf)

/-- Given a measure decreasing along `parentNode` (a finite tree), the walk
terminates and returns a node (never JS `null`). -/
theorem findScrollableParent_total (d : Dom) (μ : Option DomNode → Nat)
    (hstep : ∀ e, μ (d.parentNode e) < μ (some (DomNode.elem e)))
    (hdoc : μ none < μ (some DomNode.doc)) :
    ∀ (fuel : Nat) (x : Option DomNode), μ x < fuel →
      ∃ r, findScrollableParent d fuel x = some (some r) := by
  intro fuel
  induction fuel with
  | zero => intro x hx; exact absurd hx (Nat.not_lt_zero _)
  | succ f ih =>
    intro x hx
    match x with
    | none => exact ⟨DomNode.elem d.documentElement, rfl⟩
    | some DomNode.doc =>
      rw [findScrollableParent, if_neg (by simp [documentNode])]
      exact ih none (Nat.lt_of_succ_lt_succ (Nat.lt_of_lt_of_le (Nat.succ_lt_succ hdoc) hx))
    | some (DomNode.elem e) =>
      rw [findScrollableParent_elem_step]
      by_cases hq : qualifiesStep d e
      · exact ⟨DomNode.elem e, by rw [if_pos hq]⟩
      · rw [if_neg hq]
        exact ih (d.parentNode e)
          (Nat.lt_of_succ_lt_succ (Nat.lt_of_lt_of_le (Nat.succ_lt_succ (hstep e)) hx))

/-- C1 counterexample: the body element of `exDom` satisfies the spec's
qualification sentence (its content height 10 exceeds its visible height 5,
and it is the document body), yet the upward walk does not return it: its
computed vertical overflow is "visible", so the code walks past it and
returns the root element instead. -/
theorem claim_c1_counterexample :
    specQualifies exDom 0 ∧
      findScrollableParent exDom 5 (some (DomNode.elem 0)) = some (some (DomNode.elem 1)) ∧
      findScrollableParent exDom 5 (some (DomNode.elem 0)) ≠ some (some (DomNode.elem 0)) := by
  refine ⟨by decide, by decide, by decide⟩

/-- C1 (amended): in scrollable-ancestor resolution, a visited element is
returned at its step of the upward walk if and only if (its content height
exceeds its visible height OR it is the document body OR it is the document
root element) AND its computed vertical-overflow style is exactly "auto" or
"scroll"; otherwise the walk continues at its parent. -/
theorem claim_c1_amended (d : Dom) (fuel : Nat) (e : Nat) :
    findScrollableParent d (fuel + 1) (some (DomNode.elem e)) =
      if qualifiesStep d e then some (some (DomNode.elem e))
      else findScrollableParent d fuel (d.parentNode e) :=
  findScrollableParent_elem_step d fuel e

/-- C5: scrollable-ancestor resolution applied to the document root element
returns the document root element (whether or not the root itself passes the
overflow check, since the walk past it runs through the Document node to
null), and applied to any node whose upward walk reaches null without any
visited element qualifying it also returns the document root element. -/
theorem claim_c5 (d : Dom) :
    (∀ fuel : Nat, d.parentNode d.documentElement = some DomNode.doc → 3 ≤ fuel →
        findScrollableParent d fuel (some (DomNode.elem d.documentElement)) =
          some (some (DomNode.elem d.documentElement))) ∧
      (∀ (x : Option DomNode) (k fuel : Nat), ReachesNull d x k → k < fuel →
        findScrollableParent d fuel x = some (some (DomNode.elem d.documentElement))) := by
  constructor
  · intro fuel hparent hfuel
    by_cases hq : qualifiesStep d d.documentElement
    · obtain ⟨f, rfl⟩ := Nat.exists_eq_succ_of_ne_zero
        (Nat.pos_iff_ne_zero.mp (Nat.lt_of_lt_of_le (show 0 < 3 by decide) hfuel))
      rw [findScrollableParent_elem_step, if_pos hq]
    · refine findScrollableParent_of_reachesNull d ?_ (Nat.lt_of_lt_of_le (show 2 < 3 by decide) hfuel)
      exact ReachesNull.elemStep hq (hparent ▸ ReachesNull.docStep ReachesNull.nil)
  · intro x k fuel hr hk
    exact findScrollableParent_of_reachesNull d hr hk

theorem claim_c5_witness :
    findScrollableParent exDom 5 (some (DomNode.elem 1)) = some (some (DomNode.elem 1)) ∧
      findScrollableParent exDom 6 (some (DomNode.elem 0)) = some (some (DomNode.elem 1)) := by
  refine ⟨(claim_c5 exDom).1 5 rfl (by decide), (claim_c5 exDom).2 (some (DomNode.elem 0)) 3 6 ?_ (by decide)⟩
  exact ReachesNull.elemStep (by decide)
    (ReachesNull.elemStep (by decide) (ReachesNull.docStep ReachesNull.nil))

/-- The visible effect of a `scrollByElementTo` call: the `!parent` early
return, the `parent === element` early return, or a `scrollToTop(parent,
newScrollTop, duration)` call. -/
inductive ScrollAction where
  | nullParent : ScrollAction
  | selfParent : ScrollAction
  | scrolled (parent : DomNode) (newScrollTop : Int) : ScrollAction
  deriving DecidableEq, Repr

/-- The tree state plus the geometry reads `scrollByElementTo` and
`inViewport` need: `getBoundingClientRect().top` (viewport-relative),
the current `scrollTop`, and `window.innerHeight`. -/
structure ScrollDom extends Dom where
  rectTop : DomNode → Int
  scrollTop : DomNode → Int
  innerHeight : Int

/-- Modelled from the spec: `scrollToTop` lives in the sibling scroll module
(src/lib/utils/DOM/scroll.js, not part of src/); per §4.4 it animates the
ancestor's scroll offset from its current value to the target value over the
duration, ending exactly at the target, so its end state is
`parent.scrollTop = newScrollTop`. -/
def scrollToTop (parent : DomNode) (newScrollTop : Int) : ScrollAction :=
  ScrollAction.scrolled parent newScrollTop

/-- Embeds `scrollByElementTo(element, top, duration)`
(src/lib/utils/DOM/index.js:155-163).  `none` is the ancestor walk running
out of fuel; otherwise the source computes
`newScrollTop = elementTop - parentTop + top` from the two
`getBoundingClientRect().top` reads and calls `scrollToTop`.  The duration
only parametrises the animation and is dropped by the model. -/
def scrollByElementTo (d : ScrollDom) (fuel : Nat) (element : Nat) (top : Int) :
    Option ScrollAction :=
  match findScrollableParent d.toDom fuel (some (DomNode.elem element)) with
  | none => none
  | some none => some ScrollAction.nullParent
  | some (some parent) =>
    if parent = DomNode.elem element then some ScrollAction.selfParent
    else
      some (scrollToTop parent (d.rectTop (DomNode.elem element) - d.rectTop parent + top))

/-- Modelled from the spec (§6, bounding-geometry collaborator): when an
ancestor's scroll offset moves from its current value to `s`, the
viewport-relative top of a descendant inside its scroll content decreases by
the offset change, while the ancestor's own top is unchanged; this is the
node's final top measured from the ancestor's top. -/
def finalTopRelParent (d : ScrollDom) (element : Nat) (parent : DomNode) (s : Int) : Int :=
  (d.rectTop (DomNode.elem element) + (d.scrollTop parent - s)) - d.rectTop parent

/-- A concrete scroll scenario: target element 0 sits 100px from the
viewport top inside ancestor 1 (20px from the viewport top, unscrolled,
content 10 over client 5, overflow-y auto). -/
def exScroll2 : ScrollDom where
  parentNode := fun e =>
    match e with
    | 0 => some (DomNode.elem 1)
    | 1 => some DomNode.doc
    | _ + 2 => none
  scrollHeight := fun e =>
    match e with
    | 0 => 5
    | _ + 1 => 10
  clientHeight := fun _ => 5
  overflowY := fun e =>
    match e with
    | 0 => "visible"
    | _ + 1 => "auto"
  body := 0
  documentElement := 1
  rectTop := fun n =>
    match n with
    | DomNode.elem 0 => 100
    | DomNode.elem _ => 20
    | DomNode.doc => 0
  scrollTop := fun _ => 0
  innerHeight := 500

/-- C2 counterexample: in `exScroll2` the resolved ancestor of element 0 is
element 1 and the computed target scroll position is 100 − 20 + 10 = 90;
scrolling the ancestor there leaves the node's top 10 pixels ABOVE the
ancestor's top (−10), not 10 pixels below it as the claim states. -/
theorem claim_c2_counterexample :
    scrollByElementTo exScroll2 5 0 10 = some (ScrollAction.scrolled (DomNode.elem 1) 90) ∧
      finalTopRelParent exScroll2 0 (DomNode.elem 1) 90 ≠ 10 := by
  refine ⟨by decide, by decide⟩

/-- C2 (amended): whenever `scrollByElementTo` reaches its scroll step, the
target scroll position is (node's viewport-relative top) − (ancestor's
viewport-relative top) + desiredTopOffset — the ancestor's current scroll
offset is not part of the formula — and the final scroll position places the
node's top at (ancestor's scroll offset at call time − desiredTopOffset)
pixels below the ancestor's top, not at desiredTopOffset pixels below it. -/
theorem claim_c2_amended (d : ScrollDom) (fuel : Nat) (element : Nat) (top : Int)
    (parent : DomNode) (s : Int)
    (h : scrollByElementTo d fuel element top = some (ScrollAction.scrolled parent s)) :
    s = d.rectTop (DomNode.elem element) - d.rectTop parent + top ∧
      finalTopRelParent d element parent s = d.scrollTop parent - top := by
  unfold scrollByElementTo at h
  match hfsp : findScrollableParent d.toDom fuel (some (DomNode.elem element)) with
  | none => rw [hfsp] at h; exact absurd h (by simp)
  | some none => rw [hfsp] at h; exact absurd h (by simp)
  | some (some p) =>
    rw [hfsp] at h
    dsimp only at h
    by_cases hp : p = DomNode.elem element
    · rw [if_pos hp] at h; exact absurd h (by simp)
    · rw [if_neg hp] at h
      unfold scrollToTop at h
      obtain ⟨rfl, rfl⟩ : p = parent ∧ d.rectTop (DomNode.elem element) - d.rectTop p + top = s := by
        have h2 := Option.some.inj h
        cases h2
        exact ⟨rfl, rfl⟩
      refine ⟨rfl, ?_⟩
      unfold finalTopRelParent
      ring

theorem claim_c2_amended_witness :
    (90 : Int) = exScroll2.rectTop (DomNode.elem 0) - exScroll2.rectTop (DomNode.elem 1) + 10 ∧
      finalTopRelParent exScroll2 0 (DomNode.elem 1) 90 =
        exScroll2.scrollTop (DomNode.elem 1) - 10 :=
  claim_c2_amended exScroll2 5 0 10 (DomNode.elem 1) 90 (by decide)

/-- C9: on a finite document tree (witnessed by a measure that decreases
along every `parentNode` link, with the Document node above null), the
recursive ancestor walk terminates with enough fuel and returns a node, so
`scrollByElementTo` never takes its `!parent` early-return branch. -/
theorem claim_c9 (d : ScrollDom) (μ : Option DomNode → Nat)
    (hstep : ∀ e, μ (d.parentNode e) < μ (some (DomNode.elem e)))
    (hdoc : μ none < μ (some DomNode.doc))
    (element : Nat) (top : Int) (fuel : Nat)
    (hfuel : μ (some (DomNode.elem element)) < fuel) :
    (∃ r, findScrollableParent d.toDom fuel (some (DomNode.elem element)) = some (some r)) ∧
      scrollByElementTo d fuel element top ≠ some ScrollAction.nullParent := by
  obtain ⟨r, hr⟩ := findScrollableParent_total d.toDom μ hstep hdoc fuel
    (some (DomNode.elem element)) hfuel
  refine ⟨⟨r, hr⟩, ?_⟩
  unfold scrollByElementTo
  rw [hr]
  dsimp only
  by_cases hp : r = DomNode.elem element
  · rw [if_pos hp]; simp
  · rw [if_neg hp]; simp [scrollToTop]

/-- A measure for the parent chain of `exScroll2` (element 0 → element 1 →
Document → null). -/
def exMu : Option DomNode → Nat
  | none => 0
  | some DomNode.doc => 1
  | some (DomNode.elem 0) => 3
  | some (DomNode.elem (_ + 1)) => 2

theorem claim_c9_witness :
    (∃ r, findScrollableParent exScroll2.toDom 9 (some (DomNode.elem 0)) = some (some r)) ∧
      scrollByElementTo exScroll2 9 0 7 ≠ some ScrollAction.nullParent := by
  refine claim_c9 exScroll2 exMu ?_ (by decide) 0 7 9 (by decide)
  intro e
  match e with
  | 0 => decide
  | 1 => decide
  | _ + 2 => exact Nat.zero_lt_two

/-- State of one `onRemoveFromDOM(element, callback)` registration:
whether its `onMutation` closure is currently subscribed on the mutation
channel, and how many times `callback` has been invoked. -/
structure WatcherState where
  subscribed : Bool
  fired : Nat
  deriving DecidableEq, Repr

/-- Embeds `onRemoveFromDOM(element, callback)` (src/lib/utils/DOM/index.js:45-55):
`if (isElementInDOM(element)) mutationEvents.on('mutation', onMutation)`.
The containment test `document.body.contains(element)` at call time is the
argument; the callback has not fired. -/
def onRemoveFromDOM (isInDOM : Bool) : WatcherState :=
  { subscribed := isInDOM, fired := 0 }

/-- Embeds `mutationEvents.removeListener('mutation', onMutation)`. -/
def removeListener (s : WatcherState) : WatcherState :=
  { s with subscribed := false }

/-- Embeds `callback()` — invoked synchronously with no arguments; the model
counts invocations. -/
def invokeCallback (s : WatcherState) : WatcherState :=
  { s with fired := s.fired + 1 }

/-- One mutation event delivered to the channel, with `isInDOM` the value
of `isElementInDOM(element)` at that moment.  The emitter only calls the
closure while it is subscribed; the closure body is
`if (!isElementInDOM(element)) { removeListener; callback() }`, the
deregistration happening before the invocation. -/
def onMutation (isInDOM : Bool) (s : WatcherState) : WatcherState :=
  if s.subscribed then
    if isInDOM then s else invokeCallback (removeListener s)
  else s

/-- A whole stream of mutation events, each tagged with the containment
status of the watched element when it is delivered. -/
def runMutations (s : WatcherState) (events : List Bool) : WatcherState :=
  events.foldl (fun st c => onMutation c st) s

theorem runMutations_append (s : WatcherState) (xs ys : List Bool) :
    runMutations s (xs ++ ys) = runMutations (runMutations s xs) ys :=
  List.foldl_append _ _ _ _

theorem runMutations_inv (events : List Bool) :
    ∀ s : WatcherState, s.fired ≤ 1 → (s.subscribed = true → s.fired = 0) →
      (runMutations s events).fired ≤ 1 ∧
        ((runMutations s events).subscribed = true → (runMutations s events).fired = 0) := by
  induction events with
  | nil => intro s h1 h2; exact ⟨h1, h2⟩
  | cons c rest ih =>
    intro s h1 h2
    have hstep : runMutations s (c :: rest) = runMutations (onMutation c s) rest := rfl
    rw [hstep]
    by_cases hs : s.subscribed
    · by_cases hc : c = true
      · rw [onMutation, if_pos hs, if_pos (by rw [hc])]
        exact ih s h1 h2
      · rw [onMutation, if_pos hs, if_neg (by simpa using hc)]
        refine ih _ ?_ ?_
        · show (invokeCallback (removeListener s)).fired ≤ 1
          rw [invokeCallback, removeListener]
          simpa using h2 hs
        · intro hsub
          exact absurd hsub (by rw [invokeCallback, removeListener]; simp)
    · rw [onMutation, if_neg hs]
      exact ih s h1 h2

theorem runMutations_allInDOM (pre : List Bool) :
    ∀ s : WatcherState, (∀ c ∈ pre, c = true) → runMutations s pre = s := by
  induction pre with
  | nil => intro s _; rfl
  | cons c rest ih =>
    intro s hall
    show runMutations (onMutation c s) rest = s
    have hc : c = true := hall c (List.mem_cons_self _ _)
    have : onMutation c s = s := by
      rw [onMutation, hc]
      by_cases hs : s.subscribed
      · rw [if_pos hs, if_pos rfl]
      · rw [if_neg hs]
    rw [this]
    exact ih s (fun x hx => hall x (List.mem_cons_of_mem _ hx))

theorem runMutations_unsubscribed (events : List Bool) :
    ∀ s : WatcherState, s.subscribed = false → runMutations s events = s := by
  induction events with
  | nil => intro s _; rfl
  | cons c rest ih =>
    intro s hs
    show runMutations (onMutation c s) rest = s
    rw [onMutation, if_neg (by rw [hs]; exact Bool.false_ne_true)]
    exact ih s hs

/-- C3: a registration created while the element is attached fires the
callback at most once over any stream of mutation events; once it has
fired, the listener is deregistered, so it is not subscribed afterwards;
and on a stream whose first not-contained event follows only contained
ones, the callback fires exactly once and the listener ends deregistered,
no matter how many further mutation events (of either kind) follow. -/
theorem claim_c3 (events pre post : List Bool) (hpre : ∀ c ∈ pre, c = true) :
    (runMutations (onRemoveFromDOM true) events).fired ≤ 1 ∧
      ((runMutations (onRemoveFromDOM true) events).fired = 1 →
        (runMutations (onRemoveFromDOM true) events).subscribed = false) ∧
      (runMutations (onRemoveFromDOM true) (pre ++ false :: post)).fired = 1 ∧
      (runMutations (onRemoveFromDOM true) (pre ++ false :: post)).subscribed = false := by
  have hinv := runMutations_inv events (onRemoveFromDOM true) (by decide) (fun _ => rfl)
  have hfirst : runMutations (onRemoveFromDOM true) (pre ++ false :: post) =
      runMutations { subscribed := false, fired := 1 } post := by
    rw [runMutations_append, runMutations_allInDOM pre _ hpre]
    show runMutations (onMutation false (onRemoveFromDOM true)) post = _
    rfl
  refine ⟨hinv.1, ?_, ?_, ?_⟩
  · intro h1
    by_cases hsub : (runMutations (onRemoveFromDOM true) events).subscribed
    · exact absurd (hinv.2 hsub) (by rw [h1]; exact one_ne_zero)
    · simpa using hsub
  · rw [hfirst, runMutations_unsubscribed post _ rfl]
  · rw [hfirst, runMutations_unsubscribed post _ rfl]

theorem claim_c3_witness :
    (runMutations (onRemoveFromDOM true) [true, false, false]).fired ≤ 1 ∧
      ((runMutations (onRemoveFromDOM true) [true, false, false]).fired = 1 →
        (runMutations (onRemoveFromDOM true) [true, false, false]).subscribed = false) ∧
      (runMutations (onRemoveFromDOM true) ([true] ++ false :: [false, true])).fired = 1 ∧
      (runMutations (onRemoveFromDOM true) ([true] ++ false :: [false, true])).subscribed = false :=
  claim_c3 [true, false, false] [true] [false, true] (by decide)

/-- C4: when the element is already absent from the document at call time,
`onRemoveFromDOM` creates no subscription on the mutation channel, and the
callback is never invoked, whatever mutation events follow. -/
theorem claim_c4 (events : List Bool) :
    (onRemoveFromDOM false).subscribed = false ∧
      (runMutations (onRemoveFromDOM false) events).fired = 0 := by
  refine ⟨rfl, ?_⟩
  rw [runMutations_unsubscribed events _ rfl]
  rfl

/-- One variadic argument to the class utilities: a string, or a mapping
from class name to truthiness (the shapes the claims exercise; the
classnames helper also accepts arrays and drops falsy entries). -/
inductive ClassArg where
  | str (s : String) : ClassArg
  | map (entries : List (String × Bool)) : ClassArg
  deriving DecidableEq, Repr

/-- The classnames collaborator, per argument: a non-empty string stands
for itself (the empty string is falsy and dropped); a mapping contributes
the keys whose values are truthy, in entry order. -/
def classnamesOne : ClassArg → List String
  | ClassArg.str s => if s = "" then [] else [s]
  | ClassArg.map entries => (entries.filter (fun kv => kv.2)).map (fun kv => kv.1)

/-- Embeds `classnames(...classNames)`: the kept entries joined with single
spaces. -/
def classnames (args : List ClassArg) : String :=
  String.intercalate " " (args.flatMap classnamesOne)

/-- Maximal whitespace-free runs of a character list (`cur` is the current
run, reversed); leading, trailing and repeated whitespace contribute
nothing. -/
def splitWsChars : List Char → List Char → List (List Char)
  | [], cur => if cur = [] then [] else [cur.reverse]
  | c :: cs, cur =>
    if c.isWhitespace then
      if cur = [] then splitWsChars cs []
      else cur.reverse :: splitWsChars cs []
    else splitWsChars cs (c :: cur)

/-- Embeds `.trim().split(/\s+/)` as applied by addClass/removeClass.  On a
string with any non-whitespace, trimming then splitting on whitespace runs
yields exactly the whitespace-free words; on an all-whitespace (or empty)
string, JS `"".split(/\s+/)` yields `[""]` — the empty-string token. -/
def splitWs (s : String) : List String :=
  match splitWsChars s.data [] with
  | [] => [""]
  | ts => ts.map (fun cs => String.mk cs)

/-- The exceptions the wrapped platform interfaces can raise: SyntaxError
(empty token at the DOMTokenList interface), InvalidCharacterError
(whitespace inside a token), TypeError (property access on null). -/
inductive JsError where
  | syntaxError : JsError
  | invalidCharacterError : JsError
  | typeError : JsError
  deriving DecidableEq, Repr

instance {ε α : Type} [DecidableEq ε] [DecidableEq α] : DecidableEq (Except ε α)
  | Except.error e, Except.error f =>
    if h : e = f then isTrue (by rw [h]) else isFalse (fun hc => h (Except.error.inj hc))
  | Except.error _, Except.ok _ => isFalse (fun hc => Except.noConfusion hc)
  | Except.ok _, Except.error _ => isFalse (fun hc => Except.noConfusion hc)
  | Except.ok a, Except.ok b =>
    if h : a = b then isTrue (by rw [h]) else isFalse (fun hc => h (Except.ok.inj hc))

/-- The `DOMTokenList` append of one token: appended only if absent. -/
def tokenAdd (acc : List String) (t : String) : List String :=
  if acc.contains t then acc else acc ++ [t]

/-- Embeds `element.classList.add(...tokens)`: each token is validated (empty →
SyntaxError, embedded whitespace → InvalidCharacterError) and the valid
tokens are appended in order, skipping ones already present. -/
def classListAdd (l : List String) (tokens : List String) : Except JsError (List String) :=
  if tokens.any (fun t => t == "") then Except.error JsError.syntaxError
  else if tokens.any (fun t => t.data.any Char.isWhitespace) then Except.error JsError.invalidCharacterError
  else Except.ok (tokens.foldl tokenAdd l)

/-- Embeds `element.classList.remove(...tokens)`: same validation; every
occurrence of each token is removed. -/
def classListRemove (l : List String) (tokens : List String) : Except JsError (List String) :=
  if tokens.any (fun t => t == "") then Except.error JsError.syntaxError
  else if tokens.any (fun t => t.data.any Char.isWhitespace) then Except.error JsError.invalidCharacterError
  else Except.ok (tokens.foldl (fun acc t => acc.filter (fun x => !(x == t))) l)

/-- Embeds `addClass(element, ...classNames)` (src/lib/utils/DOM/index.js:95-98),
the non-null-element path:
`element.classList.add(...classnames(...classNames).trim().split(/\s+/))`. -/
def addClass (l : List String) (args : List ClassArg) : Except JsError (List String) :=
  classListAdd l (splitWs (classnames args))

/-- Embeds `removeClass(element, ...classNames)` (src/lib/utils/DOM/index.js:105-108),
the non-null-element path. -/
def removeClass (l : List String) (args : List ClassArg) : Except JsError (List String) :=
  classListRemove l (splitWs (classnames args))

/-- An argument to `toggleClass`: a class argument or the optional trailing
boolean flag. -/
inductive ToggleArg where
  | cls (c : ClassArg) : ToggleArg
  | flag (b : Bool) : ToggleArg
  deriving DecidableEq, Repr

/-- Embeds `toggleClass(element, ...args)` (src/lib/utils/DOM/index.js:121-135),
the non-null-element path.  `const [add, ...classNames] = args.reverse()`
reverses `args` in place; when the last original argument is a boolean the
remaining arguments are passed (in that reversed order, booleans being
dropped by classnames) to addClass or removeClass; otherwise
`forOwn(args[0], ...)` iterates the entries of the first element of the
*reversed* array — the original last argument — calling addClass for
truthy values and removeClass for falsy ones, in entry order.  A non-map
argument in that position has no own enumerable entries to iterate in the
shapes modelled here. -/
def toggleClass (l : List String) (args : List ToggleArg) : Except JsError (List String) :=
  match args.reverse with
  | ToggleArg.flag add :: classNamesRev =>
    let classNames := classNamesRev.filterMap
      (fun a => match a with | ToggleArg.cls c => some c | ToggleArg.flag _ => none)
    if add then addClass l classNames else removeClass l classNames
  | argsRev =>
    match argsRev.head? with
    | some (ToggleArg.cls (ClassArg.map entries)) =>
      entries.foldlM
        (fun acc kv =>
          if kv.2 then addClass acc [ClassArg.str kv.1] else removeClass acc [ClassArg.str kv.1])
        l
    | _ => Except.ok l

theorem mem_tokenAdd (l : List String) (t x : String) :
    x ∈ tokenAdd l t ↔ x ∈ l ∨ x = t := by
  unfold tokenAdd
  by_cases h : t ∈ l
  · rw [if_pos (by simpa using h)]
    constructor
    · exact Or.inl
    · rintro (hx | rfl)
      · exact hx
      · exact h
  · rw [if_neg (by simpa using h)]
    simp

theorem tokenAdd_of_mem {l : List String} {t : String} (h : t ∈ l) :
    tokenAdd l t = l := by
  unfold tokenAdd
  rw [if_pos (by simpa using h)]

/-- C6 counterexample: on a node whose class attribute already contains
"c", `addClass(node, 'a', {b: true, c: false})` leaves "c" in the class
list — addClass only adds tokens, it never removes the falsy-mapped ones —
so the result is not free of "c" for every initial class attribute. -/
theorem claim_c6_counterexample :
    addClass ["c"] [ClassArg.str "a", ClassArg.map [("b", true), ("c", false)]] =
      Except.ok ["c", "a", "b"] ∧ "c" ∈ ["c", "a", "b"] := by
  exact ⟨by decide, by decide⟩

/-- C6 (amended): for every non-null node and every initial class
attribute, `addClass(node, 'a', {b: true, c: false})` succeeds with a class
list containing "a" and "b"; "c" is never added, so it is present exactly
when it was present initially; and applying the same call twice yields the
same resulting class set as applying it once. -/
theorem claim_c6_amended (l : List String) :
    ∃ r, addClass l [ClassArg.str "a", ClassArg.map [("b", true), ("c", false)]] = Except.ok r ∧
      "a" ∈ r ∧ "b" ∈ r ∧ ("c" ∈ r ↔ "c" ∈ l) ∧
      addClass r [ClassArg.str "a", ClassArg.map [("b", true), ("c", false)]] = Except.ok r := by
  refine ⟨tokenAdd (tokenAdd l "a") "b", rfl, ?_, ?_, ?_, ?_⟩
  · exact (mem_tokenAdd _ _ _).2 (Or.inl ((mem_tokenAdd _ _ _).2 (Or.inr rfl)))
  · exact (mem_tokenAdd _ _ _).2 (Or.inr rfl)
  · constructor
    · intro h
      rcases (mem_tokenAdd _ _ _).1 h with h1 | h1
      · rcases (mem_tokenAdd _ _ _).1 h1 with h2 | h2
        · exact h2
        · exact absurd h2 (by decide)
      · exact absurd h1 (by decide)
    · intro h
      exact (mem_tokenAdd _ _ _).2 (Or.inl ((mem_tokenAdd _ _ _).2 (Or.inl h)))
  · have ha : "a" ∈ tokenAdd (tokenAdd l "a") "b" :=
      (mem_tokenAdd _ _ _).2 (Or.inl ((mem_tokenAdd _ _ _).2 (Or.inr rfl)))
    have hb : "b" ∈ tokenAdd (tokenAdd l "a") "b" :=
      (mem_tokenAdd _ _ _).2 (Or.inr rfl)
    have hstep : addClass (tokenAdd (tokenAdd l "a") "b")
        [ClassArg.str "a", ClassArg.map [("b", true), ("c", false)]] =
        Except.ok (tokenAdd (tokenAdd (tokenAdd (tokenAdd l "a") "b") "a") "b") := rfl
    rw [hstep, tokenAdd_of_mem ha, tokenAdd_of_mem hb]

/-- C7: `toggleClass(node, {x: true, y: false})` takes the implicit-flag
path, iterating the mapping in entry order, which performs exactly
`addClass(node, 'x')` followed by `removeClass(node, 'y')` on the class
list. -/
theorem claim_c7 (l : List String) :
    toggleClass l [ToggleArg.cls (ClassArg.map [("x", true), ("y", false)])] =
      Except.bind (addClass l [ClassArg.str "x"])
        (fun l1 => removeClass l1 [ClassArg.str "y"]) := by
  have hfold : toggleClass l [ToggleArg.cls (ClassArg.map [("x", true), ("y", false)])] =
      Except.bind (addClass l [ClassArg.str "x"])
        (fun l1 => Except.bind (removeClass l1 [ClassArg.str "y"]) Except.ok) := rfl
  rw [hfold]
  cases addClass l [ClassArg.str "x"] with
  | error e => rfl
  | ok l1 =>
    show Except.bind (removeClass l1 [ClassArg.str "y"]) Except.ok =
      removeClass l1 [ClassArg.str "y"]
    cases removeClass l1 [ClassArg.str "y"] with
    | error e => rfl
    | ok r => rfl

/-- C10: with no class-name arguments (or with arguments whose entries are
all falsy) the class-name composition is the empty string, whose trim/split
produces the single empty-string token, and the DOMTokenList interface
rejects the empty token with a SyntaxError rather than silently doing
nothing. -/
theorem claim_c10 (l : List String) :
    splitWs (classnames []) = [""] ∧
      addClass l [] = Except.error JsError.syntaxError ∧
      removeClass l [] = Except.error JsError.syntaxError ∧
      addClass l [ClassArg.map [("a", false)]] = Except.error JsError.syntaxError ∧
      removeClass l [ClassArg.map [("a", false)]] = Except.error JsError.syntaxError :=
  ⟨rfl, rfl, rfl, rfl, rfl⟩

/-- Embeds `setClass(element, ...classNames)` (src/lib/utils/DOM/index.js:85-88):
`if (element) element.className = classnames(...classNames)`; the element
state here is its raw class attribute string, `none` an absent element. -/
def setClass (el : Option String) (args : List ClassArg) : Option String :=
  match el with
  | none => none
  | some _ => some (classnames args)

/-- Embeds `addClass` including the `if (element)` null guard: the element state
is its class list, `none` an absent element, left untouched. -/
def addClassEl (el : Option (List String)) (args : List ClassArg) :
    Except JsError (Option (List String)) :=
  match el with
  | none => Except.ok none
  | some l => Except.map some (addClass l args)

/-- Embeds `removeClass` including the `if (element)` null guard. -/
def removeClassEl (el : Option (List String)) (args : List ClassArg) :
    Except JsError (Option (List String)) :=
  match el with
  | none => Except.ok none
  | some l => Except.map some (removeClass l args)

/-- Embeds `toggleClass` on a nullable element: every path delegates to addClass
or removeClass, each of which no-ops on a null element. -/
def toggleClassEl (el : Option (List String)) (args : List ToggleArg) :
    Except JsError (Option (List String)) :=
  match el with
  | none => Except.ok none
  | some l => Except.map some (toggleClass l args)

/-- Embeds `removeFromDOM(element)` (src/lib/utils/DOM/index.js:61-64):
`if (element.parentNode) element.parentNode.removeChild(element)`.  The
property read `element.parentNode` on a null element throws a TypeError;
otherwise the result reports which node was detached (`none` when the
element had no parent and the call is a no-op). -/
def removeFromDOM (d : Dom) (element : Option Nat) : Except JsError (Option Nat) :=
  match element with
  | none => Except.error JsError.typeError
  | some e =>
    match d.parentNode e with
    | some _ => Except.ok (some e)
    | none => Except.ok none

/-- Embeds `inViewport(element, offset)` (src/lib/utils/DOM/index.js:76-78):
`element.getBoundingClientRect().top - offset < window.innerHeight`; the
method call on a null element throws a TypeError. -/
def inViewport (d : ScrollDom) (element : Option Nat) (offset : Int) : Except JsError Bool :=
  match element with
  | none => Except.error JsError.typeError
  | some e => Except.ok (decide (d.rectTop (DomNode.elem e) - offset < d.innerHeight))

/-- C8 counterexample: `removeFromDOM` and `inViewport` invoked on an
absent (null) target throw a TypeError instead of no-opping, and `addClass`
on a present node with an empty composition surfaces a SyntaxError — so the
library does surface distinguishable errors. -/
theorem claim_c8_counterexample :
    removeFromDOM exDom none = Except.error JsError.typeError ∧
      inViewport exScroll2 none 0 = Except.error JsError.typeError ∧
      addClass [] [] = Except.error JsError.syntaxError :=
  ⟨rfl, rfl, rfl⟩

/-- C8 (amended): the class-mutation operations (setClass, addClass,
removeClass, toggleClass) treat an absent (null/undefined) target node as a
no-op, but removeFromDOM and inViewport do not: invoked on an absent
target they throw a TypeError from the property access on null. -/
theorem claim_c8_amended (d : Dom) (sd : ScrollDom) (args : List ClassArg)
    (targs : List ToggleArg) (off : Int) :
    setClass none args = none ∧
      addClassEl none args = Except.ok none ∧
      removeClassEl none args = Except.ok none ∧
      toggleClassEl none targs = Except.ok none ∧
      removeFromDOM d none = Except.error JsError.typeError ∧
      inViewport sd none off = Except.error JsError.typeError :=
  ⟨rfl, rfl, rfl, rfl, rfl, rfl⟩

end Widgetly
